import Mathlib

/-!
Verification of the monkey interpreter repository: a shallow embedding of
the token table (src/token/token.go), the lexer (src/lexer/lexer.go), the
AST with its String renderings (src/ast/ast.go), the Pratt parser
(src/unnamed/part_000, the current version of package parser), and a
spec-modelled evaluator (the evaluator package is not in the source tree;
only its caller in src/repl/repl.go is).

Modelling conventions:
- Go strings are Lean String / List Char; the byte 0 sentinel of the lexer
  is the character with code point 0.
- The lexer state (input, position, readPosition, ch) always satisfies
  readPosition = position + 1 and ch = input[position] (0 past the end)
  after the initial readChar in New, so it is modelled by the remaining
  input suffix: ch is its head (0 if empty) and readChar drops the head.
- Go nil pointers / nil interface values are Option.none; a method call
  that would dereference nil (a Go panic) makes the modelled function
  return none.
- The parser functions are given a fuel parameter; a result of none means
  the fuel ran out, and a result that is none for every fuel models a Go
  infinite loop. Values the Go code returns, including nil expressions,
  are wrapped in some.
-/

namespace Monkey

namespace token

/-- TokenType mirrors Go type TokenType string. -/
abbrev TokenType := String

def ILLEGAL : TokenType := "ILLEGAL"
def EOF : TokenType := "EOF"
def IDENT : TokenType := "IDENT"
def INT : TokenType := "INT"
def STRING : TokenType := "STRING"
def ASSIGN : TokenType := "="
def PLUS : TokenType := "+"
def BANG : TokenType := "!"
def MINUS : TokenType := "-"
def SLASH : TokenType := "/"
def ASTERISK : TokenType := "*"
def LT : TokenType := "<"
def GT : TokenType := ">"
def EQ : TokenType := "=="
def NOT_EQ : TokenType := "!="
def COMMA : TokenType := ","
def SEMICOLON : TokenType := ";"
def LPAREN : TokenType := "("
def RPAREN : TokenType := ")"
def LBRACE : TokenType := "\x7b"
def RBRACE : TokenType := "\x7d"
def LBRACKET : TokenType := "["
def RBRACKET : TokenType := "]"
def COLON : TokenType := ":"
def FUNCTION : TokenType := "FUNCTION"
def LET : TokenType := "LET"
def IF : TokenType := "IF"
def ELSE : TokenType := "ELSE"
def TRUE : TokenType := "TRUE"
def FALSE : TokenType := "FALSE"
def RETURN : TokenType := "RETURN"

/-- Token mirrors Go struct Token {Type TokenType; Literal string}; the Go
field Type is renamed to typ because Type is a Lean keyword. -/
structure Token where
  typ : TokenType
  literal : String
  deriving Repr, DecidableEq

/-- LookupIdent checks the keywords map of token.go, falling back to IDENT. -/
def LookupIdent (ident : String) : TokenType :=
  if ident = "fn" then FUNCTION
  else if ident = "let" then LET
  else if ident = "if" then IF
  else if ident = "else" then ELSE
  else if ident = "true" then TRUE
  else if ident = "false" then FALSE
  else if ident = "return" then RETURN
  else IDENT

end token

namespace lexer

/-- isLetter from lexer.go: ASCII letters and underscore. -/
def isLetter (ch : Char) : Bool :=
  ('a' ≤ ch && ch ≤ 'z') || ('A' ≤ ch && ch ≤ 'Z') || ch = '_'

/-- isDigit from lexer.go. -/
def isDigit (ch : Char) : Bool :=
  '0' ≤ ch && ch ≤ '9'

/-- skipWhiteSpace from lexer.go: readChar while the current character is
a space, tab, newline or carriage return.  The lexer state is the
remaining input; the current character is its head. -/
def skipWhiteSpace : List Char → List Char
  | [] => []
  | c :: rest =>
    if c = ' ' || c = '\t' || c = '\n' || c = '\r' then skipWhiteSpace rest
    else c :: rest

/-- newToken from lexer.go. -/
def newToken (tokenType : token.TokenType) (ch : Char) : token.Token :=
  { typ := tokenType, literal := String.mk [ch] }

/-- peekChar from lexer.go: the character after the current one, 0 at
the end of the input. -/
def peekChar : List Char → Char
  | [] => Char.ofNat 0
  | c :: _ => c

/-- tokenFromChar is the switch body of NextToken in lexer.go, applied to
the current character c and the input after it.  It returns the token
and the remaining input after the final readChar (the identifier and
number branches return early without that extra readChar, which the
takeWhile/dropWhile pair reflects; the two-character operators consume
the peeked character as well). -/
def tokenFromChar (c : Char) (rest : List Char) : token.Token × List Char :=
  if c = '=' then
    if peekChar rest = '=' then ({ typ := token.EQ, literal := "==" }, rest.tail)
    else (newToken token.ASSIGN c, rest)
  else if c = ';' then (newToken token.SEMICOLON c, rest)
  else if c = '(' then (newToken token.LPAREN c, rest)
  else if c = ')' then (newToken token.RPAREN c, rest)
  else if c = ',' then (newToken token.COMMA c, rest)
  else if c = '+' then (newToken token.PLUS c, rest)
  else if c = '{' then (newToken token.LBRACE c, rest)
  else if c = '}' then (newToken token.RBRACE c, rest)
  else if c = '!' then
    if peekChar rest = '=' then ({ typ := token.NOT_EQ, literal := "!=" }, rest.tail)
    else (newToken token.BANG c, rest)
  else if c = '-' then (newToken token.MINUS c, rest)
  else if c = '/' then (newToken token.SLASH c, rest)
  else if c = '*' then (newToken token.ASTERISK c, rest)
  else if c = '<' then (newToken token.LT c, rest)
  else if c = '>' then (newToken token.GT c, rest)
  else if c = Char.ofNat 0 then ({ typ := token.EOF, literal := "" }, rest)
  else if isLetter c then
    ({ typ := token.LookupIdent (String.mk ((c :: rest).takeWhile isLetter)),
       literal := String.mk ((c :: rest).takeWhile isLetter) }, (c :: rest).dropWhile isLetter)
  else if isDigit c then
    ({ typ := token.INT, literal := String.mk ((c :: rest).takeWhile isDigit) },
     (c :: rest).dropWhile isDigit)
  else (newToken token.ILLEGAL c, rest)

/-- NextToken from lexer.go, on the remaining-input representation of the
lexer state.  The head of the list plays the role of l.ch, an empty list
the role of ch = 0 at the end of the input; an embedded character of code
0 also makes l.ch zero, exactly as in Go, and is consumed by the final
readChar of the case 0 branch of tokenFromChar. -/
def NextToken (l : List Char) : token.Token × List Char :=
  match skipWhiteSpace l with
  | [] => ({ typ := token.EOF, literal := "" }, [])
  | c :: rest => tokenFromChar c rest

/-- lexState l n is the lexer state after n calls to NextToken starting
from input l (Lexer.New leaves the state exactly at the whole input). -/
def lexState (l : List Char) : Nat → List Char
  | 0 => l
  | n + 1 => (NextToken (lexState l n)).2

/-- tokenAt l n is the token returned by the (n+1)-th call to NextToken. -/
def tokenAt (l : List Char) (n : Nat) : token.Token :=
  (NextToken (lexState l n)).1

end lexer

namespace ast

/-- Identifier mirrors ast.Identifier {Token token.Token; Value string}. -/
structure Identifier where
  tok : token.Token
  value : String
  deriving Repr, DecidableEq

/-- Expression mirrors the expression nodes of ast.go.  Fields typed
Option Expression model Go interface fields that the parser can leave
nil (parseExpression returns nil on a missing prefix function, and
parseIntegerLiteral returns nil on an out-of-range literal, so the Right
and Left fields of composite nodes can be nil). -/
inductive Expression where
  | Identifier (id : ast.Identifier)
  | IntegerLiteral (tok : token.Token) (value : Int)
  | PrefixExpression (tok : token.Token) (operator : String) (right : Option Expression)
  | InfixExpression (tok : token.Token) (left : Option Expression)
      (operator : String) (right : Option Expression)
  | Boolean (tok : token.Token) (value : Bool)
  deriving Repr

/-- Statement mirrors the statement nodes of ast.go.  The value fields of
let and return statements are Option Expression because the parser of
part_000 never assigns them (Go leaves them nil). -/
inductive Statement where
  | LetStatement (tok : token.Token) (name : Identifier) (value : Option Expression)
  | ReturnStatement (tok : token.Token) (returnValue : Option Expression)
  | ExpressionStatement (tok : token.Token) (expression : Option Expression)
  deriving Repr

/-- Program mirrors ast.Program.  Elements are Option Statement because
ParseProgram of part_000 appends the result of parseStatement without a
nil check, so a failed let statement contributes a nil element. -/
structure Program where
  Statements : List (Option Statement)
  deriving Repr

/-- render models the String() method of the expression nodes of ast.go.
Calling String() through a nil Expression field is a Go nil dereference
panic, modelled by the result none. -/
def Expression.render : Expression → Option String
  | .Identifier id => some id.value
  | .IntegerLiteral tok _ => some tok.literal
  | .Boolean tok _ => some tok.literal
  | .PrefixExpression _ operator right =>
    match right with
    | none => none
    | some r =>
      match r.render with
      | none => none
      | some s => some ("(" ++ operator ++ s ++ ")")
  | .InfixExpression _ left operator right =>
    match left with
    | none => none
    | some lft =>
      match lft.render with
      | none => none
      | some ls =>
        match right with
        | none => none
        | some rgt =>
          match rgt.render with
          | none => none
          | some rs => some ("(" ++ ls ++ " " ++ operator ++ " " ++ rs ++ ")")

/-- render models the String() method of the statement nodes of ast.go.
LetStatement and ReturnStatement print their value only when it is not
nil; ExpressionStatement prints the empty string for a nil expression. -/
def Statement.render : Statement → Option String
  | .LetStatement tok name value =>
    match value with
    | none => some (tok.literal ++ " " ++ name.value ++ " = " ++ ";")
    | some v =>
      match v.render with
      | none => none
      | some s => some (tok.literal ++ " " ++ name.value ++ " = " ++ s ++ ";")
  | .ReturnStatement tok returnValue =>
    match returnValue with
    | none => some (tok.literal ++ " " ++ ";")
    | some v =>
      match v.render with
      | none => none
      | some s => some (tok.literal ++ " " ++ s ++ ";")
  | .ExpressionStatement _ expression =>
    match expression with
    | none => some ""
    | some e => e.render

/-- render models Program.String(): it concatenates the String() of every
statement in order.  Calling String() on a nil statement element (which
ParseProgram of part_000 can append) dereferences nil and panics,
modelled by none. -/
def Program.render (p : Program) : Option String :=
  p.Statements.foldl
    (fun acc s =>
      match acc with
      | none => none
      | some a =>
        match s with
        | none => none
        | some st =>
          match st.render with
          | none => none
          | some s2 => some (a ++ s2))
    (some "")

end ast

namespace parser

/-- Precedence constants of part_000: iota starting at 1 after the blank
identifier. -/
def LOWEST : Nat := 1
def EQUALS : Nat := 2
def LESSGREATER : Nat := 3
def SUM : Nat := 4
def PRODUCT : Nat := 5
def PREFIX : Nat := 6
def CALL : Nat := 7

/-- precedences map of part_000 as a partial lookup: token types absent
from the map yield none. -/
def precedences (t : token.TokenType) : Option Nat :=
  if t = token.EQ then some EQUALS
  else if t = token.NOT_EQ then some EQUALS
  else if t = token.LT then some LESSGREATER
  else if t = token.GT then some LESSGREATER
  else if t = token.PLUS then some SUM
  else if t = token.MINUS then some SUM
  else if t = token.SLASH then some PRODUCT
  else if t = token.ASTERISK then some PRODUCT
  else none

/-- Parser mirrors the Parser struct of part_000: the lexer (its remaining
input), the accumulated errors, and the two lookahead tokens.  The
prefixParseFns and infixParseFns tables are fixed at construction by New
and are modelled by the functions hasPrefixParseFn / hasInfixParseFn and
the dispatch in parseExpression below. -/
structure Parser where
  curToken : token.Token
  peekToken : token.Token
  lrest : List Char
  errors : List String
  deriving Repr, DecidableEq

/-- nextToken of part_000: promote peek to current and pull one token
from the lexer. -/
def Parser.nextToken (p : Parser) : Parser :=
  let r := lexer.NextToken p.lrest
  { p with curToken := p.peekToken, peekToken := r.1, lrest := r.2 }

/-- New of part_000: construct the parser with empty errors and read two
tokens so that curToken and peekToken are both set.  lexer.New leaves
the lexer at the whole input in the remaining-input representation. -/
def New (input : List Char) : Parser :=
  (Parser.mk { typ := "", literal := "" } { typ := "", literal := "" } input []).nextToken.nextToken

/-- curTokenIs of part_000. -/
def Parser.curTokenIs (p : Parser) (t : token.TokenType) : Bool :=
  p.curToken.typ = t

/-- peekTokenIs of part_000. -/
def Parser.peekTokenIs (p : Parser) (t : token.TokenType) : Bool :=
  p.peekToken.typ = t

/-- peekError of part_000: fmt.Sprintf with the expected and actual token
types (TokenType is a string, so %s prints it verbatim). -/
def Parser.peekError (p : Parser) (t : token.TokenType) : Parser :=
  { p with errors :=
      p.errors ++ ["expected next token to be " ++ t ++ ", got " ++ p.peekToken.typ ++ " instead"] }

/-- expectPeek of part_000: advance on a match, record a peekError and
stay put otherwise. -/
def Parser.expectPeek (p : Parser) (t : token.TokenType) : Bool × Parser :=
  if p.peekTokenIs t then (true, p.nextToken)
  else (false, p.peekError t)

/-- noPrefixParseFnError of part_000. -/
def Parser.noPrefixParseFnError (p : Parser) (t : token.TokenType) : Parser :=
  { p with errors := p.errors ++ ["no prefix parse function for " ++ t ++ " found"] }

/-- peekPrecedence of part_000: precedences lookup with LOWEST default. -/
def Parser.peekPrecedence (p : Parser) : Nat :=
  (precedences p.peekToken.typ).getD LOWEST

/-- curPrecedence of part_000: precedences lookup with LOWEST default. -/
def Parser.curPrecedence (p : Parser) : Nat :=
  (precedences p.curToken.typ).getD LOWEST

/-- hasPrefixParseFn records exactly the token types New registers in
prefixParseFns: IDENT, INT, BANG, MINUS, TRUE, FALSE. -/
def hasPrefixParseFn (t : token.TokenType) : Bool :=
  t = token.IDENT || t = token.INT || t = token.BANG || t = token.MINUS ||
  t = token.TRUE || t = token.FALSE

/-- hasInfixParseFn records exactly the token types New registers in
infixParseFns: PLUS, MINUS, SLASH, ASTERISK, EQ, NOT_EQ, LT, GT. -/
def hasInfixParseFn (t : token.TokenType) : Bool :=
  t = token.PLUS || t = token.MINUS || t = token.SLASH || t = token.ASTERISK ||
  t = token.EQ || t = token.NOT_EQ || t = token.LT || t = token.GT

/-- parseIntLit models strconv.ParseInt(s, 0, 64) on the literals the
lexer can produce for an INT token: a nonempty run of decimal digits.
With base 0, a literal beginning with 0 and longer than one digit is
parsed as octal (so a digit 8 or 9 makes it fail), otherwise as decimal,
and a value exceeding the int64 range is an error. -/
def parseIntLit (s : String) : Option Int :=
  let ds := s.data
  if ds = [] then none
  else if !ds.all lexer.isDigit then none
  else
    let digitVal : Char → Nat := fun c => c.toNat - '0'.toNat
    if ds.head? = some '0' && ds.length > 1 then
      if ds.any (fun c => c = '8' || c = '9') then none
      else
        let v := (ds.drop 1).foldl (fun acc c => acc * 8 + digitVal c) 0
        if v ≤ 9223372036854775807 then some (Int.ofNat v) else none
    else
      let v := ds.foldl (fun acc c => acc * 10 + digitVal c) 0
      if v ≤ 9223372036854775807 then some (Int.ofNat v) else none

/-- parseIdentifier of part_000. -/
def Parser.parseIdentifier (p : Parser) : Option ast.Expression × Parser :=
  (some (.Identifier { tok := p.curToken, value := p.curToken.literal }), p)

/-- parseIntegerLiteral of part_000: on a ParseInt error it records the
diagnostic (%q quotes the literal) and returns nil. -/
def Parser.parseIntegerLiteral (p : Parser) : Option ast.Expression × Parser :=
  match parseIntLit p.curToken.literal with
  | none =>
    (none, { p with errors :=
        p.errors ++ ["could not parse \"" ++ p.curToken.literal ++ "\" as an integer"] })
  | some v => (some (.IntegerLiteral p.curToken v), p)

/-- parseBoolean of part_000. -/
def Parser.parseBoolean (p : Parser) : Option ast.Expression × Parser :=
  (some (.Boolean p.curToken (p.curTokenIs token.TRUE)), p)

mutual

/-- parseExpression of part_000.  none models fuel exhaustion (the Go
code looping forever); some (e?, p) is the Go return value, where e? is
the possibly nil expression.  Every recursive call decreases fuel. -/
def parseExpression : Nat → Nat → Parser → Option (Option ast.Expression × Parser)
  | 0, _, _ => none
  | fuel + 1, precedence, p =>
    if hasPrefixParseFn p.curToken.typ then
      match runPrefixParseFn fuel p with
      | none => none
      | some (leftExp, p') => prattLoop fuel precedence leftExp p'
    else
      some (none, p.noPrefixParseFnError p.curToken.typ)

/-- runPrefixParseFn dispatches to the prefix parse function New
registers for the current token type (the p.prefixParseFns lookup). -/
def runPrefixParseFn : Nat → Parser → Option (Option ast.Expression × Parser)
  | 0, _ => none
  | fuel + 1, p =>
    if p.curToken.typ = token.IDENT then some p.parseIdentifier
    else if p.curToken.typ = token.INT then some p.parseIntegerLiteral
    else if p.curToken.typ = token.BANG || p.curToken.typ = token.MINUS then
      parsePrefixExpression fuel p
    else if p.curToken.typ = token.TRUE || p.curToken.typ = token.FALSE then
      some p.parseBoolean
    else
      -- unreachable: parseExpression dispatches here only for token types
      -- with a registered prefix parse function
      some (none, p)

/-- parsePrefixExpression of part_000: remember the operator token,
advance, and parse the operand with PREFIX precedence. -/
def parsePrefixExpression : Nat → Parser → Option (Option ast.Expression × Parser)
  | 0, _ => none
  | fuel + 1, p =>
    let tok := p.curToken
    let p' := p.nextToken
    match parseExpression fuel PREFIX p' with
    | none => none
    | some (right, p'') => some (some (.PrefixExpression tok tok.literal right), p'')

/-- prattLoop is the main loop of parseExpression in part_000: while the
next token is no semicolon and binds strictly tighter than the given
precedence, look up an infix parse function for it (returning the left
expression when there is none), advance onto it and run it. -/
def prattLoop : Nat → Nat → Option ast.Expression → Parser → Option (Option ast.Expression × Parser)
  | 0, _, _, _ => none
  | fuel + 1, precedence, leftExp, p =>
    if !p.peekTokenIs token.SEMICOLON && precedence < p.peekPrecedence then
      if hasInfixParseFn p.peekToken.typ then
        let p' := p.nextToken
        match parseInfixExpression fuel leftExp p' with
        | none => none
        | some (newLeft, p'') => prattLoop fuel precedence newLeft p''
      else some (leftExp, p)
    else some (leftExp, p)

/-- parseInfixExpression of part_000: remember the operator token and the
left operand, take the current precedence, advance, and parse the right
operand with that precedence. -/
def parseInfixExpression : Nat → Option ast.Expression → Parser → Option (Option ast.Expression × Parser)
  | 0, _, _ => none
  | fuel + 1, left, p =>
    let tok := p.curToken
    let precedence := p.curPrecedence
    let p' := p.nextToken
    match parseExpression fuel precedence p' with
    | none => none
    | some (right, p'') => some (some (.InfixExpression tok left tok.literal right), p'')

end

/-- skipToSemicolon is the statement-body loop of parseLetStatement and
parseReturnStatement in part_000: advance until the current token is a
semicolon.  none models fuel exhaustion; the loop genuinely never exits
when no semicolon is ahead, because the lexer keeps returning EOF. -/
def skipToSemicolon : Nat → Parser → Option Parser
  | 0, _ => none
  | fuel + 1, p =>
    if p.curTokenIs token.SEMICOLON then some p
    else skipToSemicolon fuel p.nextToken

/-- parseLetStatement of part_000: expect an identifier and the assign
token, then skip everything up to a semicolon; the Value field is never
assigned (the TODO in the source), so it stays nil. -/
def parseLetStatement (fuel : Nat) (p : Parser) : Option (Option ast.Statement × Parser) :=
  let stmtTok := p.curToken
  let r1 := p.expectPeek token.IDENT
  if !r1.1 then some (none, r1.2)
  else
    let p1 := r1.2
    let name : ast.Identifier := { tok := p1.curToken, value := p1.curToken.literal }
    let r2 := p1.expectPeek token.ASSIGN
    if !r2.1 then some (none, r2.2)
    else
      match skipToSemicolon fuel r2.2 with
      | none => none
      | some p2 => some (some (.LetStatement stmtTok name none), p2)

/-- parseReturnStatement of part_000: advance once, then skip everything
up to a semicolon; the ReturnValue field is never assigned, so it stays
nil. -/
def parseReturnStatement (fuel : Nat) (p : Parser) : Option (Option ast.Statement × Parser) :=
  let stmtTok := p.curToken
  match skipToSemicolon fuel p.nextToken with
  | none => none
  | some p1 => some (some (.ReturnStatement stmtTok none), p1)

/-- parseExpressionStatement of part_000: parse an expression with LOWEST
precedence and consume an optional trailing semicolon. -/
def parseExpressionStatement (fuel : Nat) (p : Parser) : Option (Option ast.Statement × Parser) :=
  let stmtTok := p.curToken
  match parseExpression fuel LOWEST p with
  | none => none
  | some (e, p1) =>
    let p2 := if p1.peekTokenIs token.SEMICOLON then p1.nextToken else p1
    some (some (.ExpressionStatement stmtTok e), p2)

/-- parseStatement of part_000: dispatch on the current token type. -/
def parseStatement (fuel : Nat) (p : Parser) : Option (Option ast.Statement × Parser) :=
  if p.curToken.typ = token.LET then parseLetStatement fuel p
  else if p.curToken.typ = token.RETURN then parseReturnStatement fuel p
  else parseExpressionStatement fuel p

/-- ParseProgramLoop is the loop of ParseProgram in part_000: until the
current token is EOF, parse a statement, append it to the statement list
WITHOUT a nil check (unlike the older src/parser/parser.go), and
advance. -/
def ParseProgramLoop : Nat → Parser → List (Option ast.Statement) → Option (ast.Program × Parser)
  | 0, _, _ => none
  | fuel + 1, p, acc =>
    if p.curTokenIs token.EOF then some ({ Statements := acc }, p)
    else
      match parseStatement fuel p with
      | none => none
      | some (stmt, p1) => ParseProgramLoop fuel p1.nextToken (acc ++ [stmt])

/-- ParseProgram of part_000. -/
def ParseProgram (fuel : Nat) (p : Parser) : Option (ast.Program × Parser) :=
  ParseProgramLoop fuel p []

/-- parseInput runs lexer.New and parser.New on an input string and
parses the whole program, as the REPL does. -/
def parseInput (fuel : Nat) (input : String) : Option (ast.Program × Parser) :=
  ParseProgram fuel (New input.data)

/-- renderOfInput is the String() rendering of the parsed program: none
when the parse runs out of fuel or the rendering panics on a nil node. -/
def renderOfInput (fuel : Nat) (input : String) : Option String :=
  match parseInput fuel input with
  | none => none
  | some (prog, _) => prog.render

/-- errorsOfInput is the Errors() list of the parser after parsing. -/
def errorsOfInput (fuel : Nat) (input : String) : Option (List String) :=
  match parseInput fuel input with
  | none => none
  | some (_, p) => some p.errors

end parser

namespace object

/-- Object mirrors the runtime values of src/object/object.go.  The
Function variant is omitted: its Body field has type *ast.BlockStatement,
which does not exist in the ast package in the source tree, so no claim
can reach it.  ReturnValue wraps an Option because its Go Value field is
a nilable interface. -/
inductive Object where
  | Integer (value : Int)
  | Boolean (value : Bool)
  | Null
  | ReturnValue (value : Option Object)
  | Error (message : String)
  deriving Repr

/-- objEqIdentity models Go pointer identity on the operands that reach
the == and != cases of evalInfixExpression: True, False and Null are
canonical singletons, so two Booleans are identical exactly when their
values are equal and Null is identical to Null; objects of any other
variant are separate allocations and never identical. -/
def objEqIdentity : Object → Object → Bool
  | .Boolean a, .Boolean b => a == b
  | .Null, .Null => true
  | _, _ => false

/-- Type of object.go: the ObjectType string of each variant. -/
def Object.objType : Object → String
  | .Integer _ => "INTEGER"
  | .Boolean _ => "BOOLEAN"
  | .Null => "NULL"
  | .ReturnValue _ => "RETURN_VALUE"
  | .Error _ => "ERROR"

/-- Environment mirrors object.Environment: a store plus an optional
outer environment.  The Go map is modelled as an association list where
Set prepends, so a later Set shadows an earlier one, exactly like a map
overwrite. -/
inductive Environment where
  | mk (store : List (String × Object)) (outer : Option Environment)

/-- NewEnvironment of object.go. -/
def NewEnvironment : Environment := .mk [] none

/-- NewEnclosedEnvironment of object.go. -/
def NewEnclosedEnvironment (outer : Environment) : Environment := .mk [] (some outer)

/-- Get of object.go: resolve locally, then recursively in the outer
environment. -/
def Environment.Get : Environment → String → Option Object
  | .mk store outer, name =>
    match List.lookup name store with
    | some obj => some obj
    | none =>
      match outer with
      | some o => o.Get name
      | none => none

/-- Set of object.go: bind in the local store only. -/
def Environment.Set : Environment → String → Object → Environment
  | .mk store outer, name, val => .mk ((name, val) :: store) outer

end object

namespace evaluator

open object

/-- Modelled from the spec: the evaluator package is not under src/ (only
its caller in src/repl/repl.go is), so this definition and the ones below
follow spec section 4.4.  isTruthy: bang is true only for false and Null
(truthiness). -/
def isTruthy : Object → Bool
  | .Boolean b => b
  | .Null => false
  | _ => true

/-- Modelled from the spec: bang on any value is true only for false and
Null, false otherwise. -/
def evalBangOperatorExpression (o : Object) : Object :=
  match o with
  | .Boolean false => .Boolean true
  | .Null => .Boolean true
  | _ => .Boolean false

/-- Modelled from the spec: unary minus requires an Integer operand;
applying it to a non-integer yields Error "unknown operator: -TYPE". -/
def evalMinusPrefixOperatorExpression (o : Object) : Object :=
  match o with
  | .Integer v => .Integer (-v)
  | _ => .Error ("unknown operator: -" ++ o.objType)

/-- Modelled from the spec: prefix dispatch over the two unary
operators; anything else is an unknown-operator error. -/
def evalPrefixExpression (operator : String) (o : Object) : Object :=
  if operator = "!" then evalBangOperatorExpression o
  else if operator = "-" then evalMinusPrefixOperatorExpression o
  else .Error ("unknown operator: " ++ operator ++ o.objType)

/-- Modelled from the spec: binary arithmetic on two Integers, with < >
== != as integer comparisons; any other operator on Integers is an
unknown-operator error.  Int.tdiv truncates toward zero like Go. -/
def evalIntegerInfixExpression (operator : String) (a b : Int) : Object :=
  if operator = "+" then .Integer (a + b)
  else if operator = "-" then .Integer (a - b)
  else if operator = "*" then .Integer (a * b)
  else if operator = "/" then .Integer (Int.tdiv a b)
  else if operator = "<" then .Boolean (a < b)
  else if operator = ">" then .Boolean (b < a)
  else if operator = "==" then .Boolean (a = b)
  else if operator = "!=" then .Boolean (a ≠ b)
  else .Error ("unknown operator: INTEGER " ++ operator ++ " INTEGER")

/-- Modelled from the spec: both operands Integer use integer rules; an
operand-kind mismatch yields Error "type mismatch: L op R"; == and !=
on same-kind operands (Boolean or Null singletons) compare by identity,
which for canonical singletons is value equality; anything else is
Error "unknown operator: L op R". -/
def evalInfixExpression (operator : String) (l r : Object) : Object :=
  match l, r with
  | .Integer a, .Integer b => evalIntegerInfixExpression operator a b
  | _, _ =>
    if l.objType ≠ r.objType then
      .Error ("type mismatch: " ++ l.objType ++ " " ++ operator ++ " " ++ r.objType)
    else if operator = "==" then .Boolean (objEqIdentity l r)
    else if operator = "!=" then .Boolean (!objEqIdentity l r)
    else .Error ("unknown operator: " ++ l.objType ++ " " ++ operator ++ " " ++ r.objType)

/-- Modelled from the spec: expression evaluation.  Literals map to their
Object counterpart; identifiers resolve through Environment.Get with
Error "identifier not found: name" on failure; prefix and infix evaluate
operands first and propagate an Error operand immediately.  A nil AST
node (none), which the spec does not contemplate, evaluates to none,
mirroring the Go evaluator returning nil for an unmatched node; none is
not an Error and is never dereferenced here. -/
def evalExpression : ast.Expression → Environment → Option Object
  | .IntegerLiteral _ v, _ => some (.Integer v)
  | .Boolean _ b, _ => some (.Boolean b)
  | .Identifier id, env =>
    match env.Get id.value with
    | some o => some o
    | none => some (.Error ("identifier not found: " ++ id.value))
  | .PrefixExpression _ operator right, env =>
    match right with
    | none => none
    | some r =>
      match evalExpression r env with
      | none => none
      | some ro =>
        match ro with
        | .Error m => some (.Error m)
        | _ => some (evalPrefixExpression operator ro)
  | .InfixExpression _ left operator right, env =>
    match left with
    | none => none
    | some lft =>
      match evalExpression lft env with
      | none => none
      | some lo =>
        match lo with
        | .Error m => some (.Error m)
        | _ =>
          match right with
          | none => none
          | some rgt =>
            match evalExpression rgt env with
            | none => none
            | some ro =>
              match ro with
              | .Error m => some (.Error m)
              | _ => some (evalInfixExpression operator lo ro)

/-- Modelled from the spec: statement evaluation.  An expression
statement evaluates its expression; a return statement wraps its value
in ReturnValue (the value field is nil in every statement this parser
produces, and the wrapper keeps it nil); a let statement evaluates its
value and binds it, yielding no value of its own (nothing to bind when
the value is nil). -/
def evalStatement : ast.Statement → Environment → Option Object × Environment
  | .ExpressionStatement _ none, env => (none, env)
  | .ExpressionStatement _ (some e), env => (evalExpression e env, env)
  | .ReturnStatement _ none, env => (some (.ReturnValue none), env)
  | .ReturnStatement _ (some e), env =>
    match evalExpression e env with
    | none => (some (.ReturnValue none), env)
    | some (.Error m) => (some (.Error m), env)
    | some v => (some (.ReturnValue (some v)), env)
  | .LetStatement _ _ none, env => (none, env)
  | .LetStatement _ name (some e), env =>
    match evalExpression e env with
    | none => (none, env)
    | some (.Error m) => (some (.Error m), env)
    | some v => (none, env.Set name.value v)

/-- Modelled from the spec: statement-sequence evaluation for Program.
Statements evaluate in order; the value of the sequence is the value of
its last statement, except that a ReturnValue is unwrapped to its inner
value and propagated immediately and an Error is propagated immediately.
A nil statement element evaluates to nil (none) and does not
short-circuit. -/
def evalStatements : List (Option ast.Statement) → Option Object → Environment → Option Object × Environment
  | [], result, env => (result, env)
  | none :: rest, _, env => evalStatements rest none env
  | some st :: rest, _, env =>
    match evalStatement st env with
    | (some (.ReturnValue v), env') => (v, env')
    | (some (.Error m), env') => (some (.Error m), env')
    | (r, env') => evalStatements rest r env'

/-- Modelled from the spec: Eval(node, env) -> Object, here at the
Program root, as the REPL applies it to a parsed program.  The Object
result is optional because the Go evaluator returns a nil Object for
nodes it does not handle. -/
def Eval (prog : ast.Program) (env : Environment) : Option Object :=
  (evalStatements prog.Statements none env).1

/-- evalInput parses an input string and evaluates the resulting program
in a fresh environment, the pipeline of the REPL. -/
def evalInput (fuel : Nat) (input : String) : Option (Option Object) :=
  match parser.parseInput fuel input with
  | none => none
  | some (prog, _) => some (Eval prog NewEnvironment)

end evaluator

/-!
Theorems about the claims.
-/

/-- C1 (counterexample): the parser registers no prefix parse function
for LPAREN, so the AST parsed from `(5 + 5) * 2` is not a grouped
product: evaluating the parsed program yields Integer 2 (the value of
its last statement, the literal 2), not Integer 20. -/
theorem eval_paren_product_gives_two :
    evaluator.evalInput 100 "(5 + 5) * 2" = some (some (object.Object.Integer 2)) ∧
    (2 : Int) ≠ 20 := by
  exact ⟨rfl, by decide⟩

/-- C1 (amended): Eval of the AST parsed from `5 + 5 * 2` in a fresh
environment yields Integer 15; parsing `(5 + 5) * 2` records
no-prefix-parse-function diagnostics and evaluating the program it
returns yields Integer 2. -/
theorem eval_of_parsed_arithmetic :
    evaluator.evalInput 100 "5 + 5 * 2" = some (some (object.Object.Integer 15)) ∧
    evaluator.evalInput 100 "(5 + 5) * 2" = some (some (object.Object.Integer 2)) ∧
    parser.errorsOfInput 100 "(5 + 5) * 2" =
      some ["no prefix parse function for ( found",
            "no prefix parse function for ) found",
            "no prefix parse function for * found"] := by
  exact ⟨rfl, rfl, rfl⟩

/-- C2: parsing `a + b * c`, `-a * b` and `3 > 5 == false` and rendering
the resulting programs with String() yields exactly the fully
parenthesized reconstructions, with no parse errors. -/
theorem parse_render_precedence :
    (parser.renderOfInput 100 "a + b * c" = some "(a + (b * c))" ∧
     parser.errorsOfInput 100 "a + b * c" = some []) ∧
    (parser.renderOfInput 100 "-a * b" = some "((-a) * b)" ∧
     parser.errorsOfInput 100 "-a * b" = some []) ∧
    (parser.renderOfInput 100 "3 > 5 == false" = some "((3 > 5) == false)" ∧
     parser.errorsOfInput 100 "3 > 5 == false" = some []) := by
  exact ⟨⟨rfl, rfl⟩, ⟨rfl, rfl⟩, ⟨rfl, rfl⟩⟩

/-- C3 (counterexample): parsing `let x = 5;` yields a LetStatement whose
Name is the identifier x but whose Value field is nil, not the parsed
expression 5; parsing `return 5;` yields a ReturnStatement whose
ReturnValue field is nil. -/
theorem parse_let_return_value_nil :
    (parser.parseInput 100 "let x = 5;").map (fun r => r.1.Statements) =
      some [some (ast.Statement.LetStatement { typ := token.LET, literal := "let" }
              { tok := { typ := token.IDENT, literal := "x" }, value := "x" } none)] ∧
    (parser.parseInput 100 "return 5;").map (fun r => r.1.Statements) =
      some [some (ast.Statement.ReturnStatement
              { typ := token.RETURN, literal := "return" } none)] := by
  exact ⟨rfl, rfl⟩

/-- C4 (counterexample): the program parsed from `a + b * c` renders as
`(a + (b * c))`, but re-parsing that rendering yields a program whose own
String() rendering is not that string: the parse terminates, yet the
re-parsed program contains nil expression nodes (there is no prefix parse
function for LPAREN), so rendering it dereferences nil and panics
(modelled as none). -/
theorem roundtrip_not_fixed_point :
    parser.renderOfInput 100 "a + b * c" = some "(a + (b * c))" ∧
    (parser.parseInput 100 "(a + (b * c))").isSome = true ∧
    parser.renderOfInput 100 "(a + (b * c))" = none := by
  exact ⟨rfl, rfl, rfl⟩

/-- C4 (amended): rendering then parsing then rendering is not in
general a fixed point after one pass; this theorem proves the exact
behavior on an instance of each shape.  It is a fixed point for each of
the inputs let x = 5; / return 5; / foobar; / 5; true; / a + b / -a —
including the flat parenthesized operator expressions, whose stray
parentheses re-parse as nil expression statements that render as the
empty string under the nil guard of ExpressionStatement.String().  It
fails when an operand position re-parses to a nil operand, or when the
concatenated rendering re-ingests across statement boundaries:
3 > 5 == false re-renders as (3 > 5)false, and x; let y = 1; renders as
xlet y = ; whose second pass renders as xlety. -/
theorem roundtrip_one_pass_cases :
    (parser.renderOfInput 100 "let x = 5;" = some "let x = ;" ∧
     parser.renderOfInput 100 "let x = ;" = some "let x = ;") ∧
    (parser.renderOfInput 100 "return 5;" = some "return ;" ∧
     parser.renderOfInput 100 "return ;" = some "return ;") ∧
    (parser.renderOfInput 100 "foobar;" = some "foobar" ∧
     parser.renderOfInput 100 "foobar" = some "foobar") ∧
    (parser.renderOfInput 100 "5; true;" = some "5true" ∧
     parser.renderOfInput 100 "5true" = some "5true") ∧
    (parser.renderOfInput 100 "a + b" = some "(a + b)" ∧
     parser.renderOfInput 100 "(a + b)" = some "(a + b)") ∧
    (parser.renderOfInput 100 "-a" = some "(-a)" ∧
     parser.renderOfInput 100 "(-a)" = some "(-a)") ∧
    (parser.renderOfInput 100 "3 > 5 == false" = some "((3 > 5) == false)" ∧
     parser.renderOfInput 100 "((3 > 5) == false)" = some "(3 > 5)false") ∧
    (parser.renderOfInput 100 "x; let y = 1;" = some "xlet y = ;" ∧
     parser.renderOfInput 100 "xlet y = ;" = some "xlety") := by
  exact ⟨⟨rfl, rfl⟩, ⟨rfl, rfl⟩, ⟨rfl, rfl⟩, ⟨rfl, rfl⟩, ⟨rfl, rfl⟩, ⟨rfl, rfl⟩,
    ⟨rfl, rfl⟩, ⟨rfl, rfl⟩⟩

/-- C6: parsing `let 5;` (a let statement that fails the expectPeek IDENT
check) yields a Program whose Statements list DOES contain an element for
the failed statement: the nil result of parseLetStatement is appended
without a check, so Statements is [nil, 5-statement], and rendering the
program panics on the nil element. -/
theorem failed_let_statement_appends_nil :
    (parser.parseInput 100 "let 5;").map (fun r => (r.1.Statements, r.2.errors)) =
      some ([none,
             some (ast.Statement.ExpressionStatement { typ := token.INT, literal := "5" }
               (some (ast.Expression.IntegerLiteral { typ := token.INT, literal := "5" } 5)))],
            ["expected next token to be IDENT, got INT instead"]) ∧
    (parser.parseInput 100 "let 5;").map (fun r => r.1.render) = some none := by
  exact ⟨rfl, rfl⟩

/-- C7: parsing `let x 5;` records exactly the diagnostic "expected next
token to be =, got INT instead", terminates, and the parser goes on to
parse the statement that follows in the same input (the expression
statement 5). -/
theorem let_missing_assign_recovers :
    (parser.parseInput 100 "let x 5;").map (fun r => (r.1.Statements, r.2.errors)) =
      some ([none,
             some (ast.Statement.ExpressionStatement { typ := token.INT, literal := "5" }
               (some (ast.Expression.IntegerLiteral { typ := token.INT, literal := "5" } 5)))],
            ["expected next token to be =, got INT instead"]) := by
  exact rfl

/-- C9 (counterexample): NextToken returns an ILLEGAL token, not a
bracket, colon or string token, for each of the inputs left bracket,
right bracket, colon, and a double-quoted string literal. -/
theorem bracket_colon_string_are_illegal :
    lexer.NextToken ("[").data = ({ typ := token.ILLEGAL, literal := "[" }, []) ∧
    lexer.NextToken ("]").data = ({ typ := token.ILLEGAL, literal := "]" }, []) ∧
    lexer.NextToken (":").data = ({ typ := token.ILLEGAL, literal := ":" }, []) ∧
    (lexer.NextToken ("\"hello\"").data).1 = { typ := token.ILLEGAL, literal := "\"" } ∧
    token.ILLEGAL ≠ token.LBRACKET ∧ token.ILLEGAL ≠ token.COLON ∧
    token.ILLEGAL ≠ token.STRING := by
  exact ⟨rfl, rfl, rfl, rfl, by decide, by decide, by decide⟩

/-- C9 (amended): the token table does declare the kinds LBRACKET "[",
RBRACKET "]", COLON ":" and STRING, but the switch in NextToken has no
case for those characters, so it classifies each of them, and the opening
quote of a string literal, as ILLEGAL. -/
theorem bracket_colon_string_kinds_unproduced :
    token.LBRACKET = "[" ∧ token.RBRACKET = "]" ∧ token.COLON = ":" ∧
    token.STRING = "STRING" ∧
    (lexer.NextToken ("[").data).1.typ = token.ILLEGAL ∧
    (lexer.NextToken ("]").data).1.typ = token.ILLEGAL ∧
    (lexer.NextToken (":").data).1.typ = token.ILLEGAL ∧
    (lexer.NextToken ("\"hello\"").data).1.typ = token.ILLEGAL := by
  exact ⟨rfl, rfl, rfl, rfl, rfl, rfl, rfl, rfl⟩

/-- C5: whenever parseExpression runs with nonzero fuel on a state whose
current token type has no registered prefix parse function, it returns
the nil expression and the same state with the diagnostic
"no prefix parse function for KIND found" appended to the error list. -/
theorem parseExpression_no_prefix_fn_records_error (fuel precedence : Nat)
    (p : parser.Parser) (h : parser.hasPrefixParseFn p.curToken.typ = false) :
    parser.parseExpression (fuel + 1) precedence p =
      some (none, { p with errors :=
        p.errors ++ ["no prefix parse function for " ++ p.curToken.typ ++ " found"] }) := by
  rw [parser.parseExpression]
  simp [h, parser.Parser.noPrefixParseFnError]

/-- Witness for the C5 theorem at the concrete state reached on input
`(`: LPAREN has no prefix parse function, and parseExpression records
the diagnostic. -/
theorem parseExpression_no_prefix_fn_records_error_witness :
    parser.hasPrefixParseFn (parser.New ("(").data).curToken.typ = false ∧
    parser.parseExpression 1 parser.LOWEST (parser.New ("(").data) =
      some (none, { parser.New ("(").data with errors :=
        (parser.New ("(").data).errors ++
          ["no prefix parse function for " ++ (parser.New ("(").data).curToken.typ ++ " found"] }) :=
  ⟨rfl, parseExpression_no_prefix_fn_records_error 0 parser.LOWEST _ rfl⟩

/-- C3 (amended): every let statement the parser returns has the
identifier after `let` as its Name and a nil Value, and every return
statement it returns has a nil ReturnValue: the parser skips the
expression tokens up to the semicolon and never populates the value
fields. -/
theorem parse_let_return_shape :
    (∀ (fuel : Nat) (p q : parser.Parser) (st : ast.Statement),
      parser.parseLetStatement fuel p = some (some st, q) →
      st = ast.Statement.LetStatement p.curToken
             { tok := p.peekToken, value := p.peekToken.literal } none) ∧
    (∀ (fuel : Nat) (p q : parser.Parser) (st : ast.Statement),
      parser.parseReturnStatement fuel p = some (some st, q) →
      st = ast.Statement.ReturnStatement p.curToken none) := by
  constructor
  · intro fuel p q st h
    simp only [parser.parseLetStatement, parser.Parser.expectPeek] at h
    by_cases h1 : p.peekTokenIs token.IDENT
    · simp only [h1, if_true, Bool.not_true] at h
      by_cases h2 : (p.nextToken).peekTokenIs token.ASSIGN
      · simp only [h2, if_true, Bool.not_true] at h
        cases hs : parser.skipToSemicolon fuel (p.nextToken).nextToken with
        | none => rw [hs] at h; simp at h
        | some p2 =>
          rw [hs] at h
          simp only [Bool.false_eq_true, if_false, Option.some.injEq, Prod.mk.injEq] at h
          exact h.1.symm
      · simp [h2] at h
    · simp [h1] at h
  · intro fuel p q st h
    simp only [parser.parseReturnStatement] at h
    cases hs : parser.skipToSemicolon fuel p.nextToken with
    | none => rw [hs] at h; simp at h
    | some p1 =>
      rw [hs] at h
      simp only [Option.some.injEq, Prod.mk.injEq] at h
      exact h.1.symm

/-- Witness for the C3 amended theorem: parsing the let statement of
`let x = 5;` returns the statement with Name x and Value nil, and the
theorem identifies it from the entry state. -/
theorem parse_let_return_shape_witness :
    parser.parseLetStatement 50 (parser.New ("let x = 5;").data) =
      some (some (ast.Statement.LetStatement { typ := token.LET, literal := "let" }
              { tok := { typ := token.IDENT, literal := "x" }, value := "x" } none),
            { curToken := { typ := token.SEMICOLON, literal := ";" },
              peekToken := { typ := token.EOF, literal := "" },
              lrest := [], errors := [] }) ∧
    ast.Statement.LetStatement { typ := token.LET, literal := "let" }
        { tok := { typ := token.IDENT, literal := "x" }, value := "x" } none =
      ast.Statement.LetStatement (parser.New ("let x = 5;").data).curToken
        { tok := (parser.New ("let x = 5;").data).peekToken,
          value := (parser.New ("let x = 5;").data).peekToken.literal } none :=
  ⟨rfl, parse_let_return_shape.1 50 (parser.New ("let x = 5;").data) _ _ rfl⟩

/-- skipWhiteSpace only drops leading characters, so its result is a
suffix of its argument. -/
theorem skipWhiteSpace_suffix (l : List Char) : lexer.skipWhiteSpace l <:+ l := by
  induction l with
  | nil => simp [lexer.skipWhiteSpace]
  | cons c rest ih =>
    rw [lexer.skipWhiteSpace]
    split
    · exact ih.trans (List.suffix_cons c rest)
    · exact List.suffix_refl _

set_option maxHeartbeats 1000000 in
/-- tokenFromChar only consumes characters, so the state it returns is a
suffix of the state it was given. -/
theorem tokenFromChar_snd_suffix (c : Char) (rest : List Char) :
    (lexer.tokenFromChar c rest).2 <:+ c :: rest := by
  have hc : rest <:+ c :: rest := List.suffix_cons c rest
  have ht : rest.tail <:+ c :: rest := (List.tail_suffix rest).trans hc
  rw [lexer.tokenFromChar]
  by_cases h1 : c = '='
  · rw [if_pos h1]
    by_cases h1b : lexer.peekChar rest = '='
    · rw [if_pos h1b]; exact ht
    · rw [if_neg h1b]; exact hc
  rw [if_neg h1]
  by_cases h2 : c = ';'
  · rw [if_pos h2]; exact hc
  rw [if_neg h2]
  by_cases h3 : c = '('
  · rw [if_pos h3]; exact hc
  rw [if_neg h3]
  by_cases h4 : c = ')'
  · rw [if_pos h4]; exact hc
  rw [if_neg h4]
  by_cases h5 : c = ','
  · rw [if_pos h5]; exact hc
  rw [if_neg h5]
  by_cases h6 : c = '+'
  · rw [if_pos h6]; exact hc
  rw [if_neg h6]
  by_cases h7 : c = '\x7b'
  · rw [if_pos h7]; exact hc
  rw [if_neg h7]
  by_cases h8 : c = '\x7d'
  · rw [if_pos h8]; exact hc
  rw [if_neg h8]
  by_cases h9 : c = '!'
  · rw [if_pos h9]
    by_cases h9b : lexer.peekChar rest = '='
    · rw [if_pos h9b]; exact ht
    · rw [if_neg h9b]; exact hc
  rw [if_neg h9]
  by_cases h10 : c = '-'
  · rw [if_pos h10]; exact hc
  rw [if_neg h10]
  by_cases h11 : c = '/'
  · rw [if_pos h11]; exact hc
  rw [if_neg h11]
  by_cases h12 : c = '*'
  · rw [if_pos h12]; exact hc
  rw [if_neg h12]
  by_cases h13 : c = '<'
  · rw [if_pos h13]; exact hc
  rw [if_neg h13]
  by_cases h14 : c = '>'
  · rw [if_pos h14]; exact hc
  rw [if_neg h14]
  by_cases h15 : c = Char.ofNat 0
  · rw [if_pos h15]; exact hc
  rw [if_neg h15]
  by_cases h16 : lexer.isLetter c = true
  · rw [if_pos h16]; exact List.dropWhile_suffix lexer.isLetter
  rw [if_neg h16]
  by_cases h17 : lexer.isDigit c = true
  · rw [if_pos h17]; exact List.dropWhile_suffix lexer.isDigit
  rw [if_neg h17]
  exact hc

/-- NextToken only consumes characters: the state it returns is a suffix
of the state it was given. -/
theorem NextToken_snd_suffix (l : List Char) : (lexer.NextToken l).2 <:+ l := by
  rw [lexer.NextToken]
  cases hs : lexer.skipWhiteSpace l with
  | nil => exact List.nil_suffix
  | cons c rest =>
    have h1 : c :: rest <:+ l := hs ▸ skipWhiteSpace_suffix l
    exact (tokenFromChar_snd_suffix c rest).trans h1

/-- LookupIdent never yields the EOF kind: keywords map to keyword kinds
and everything else to IDENT. -/
theorem LookupIdent_ne_EOF (s : String) : token.LookupIdent s ≠ token.EOF := by
  unfold token.LookupIdent
  split_ifs <;> decide

set_option maxHeartbeats 1000000 in
/-- tokenFromChar yields the EOF kind only in its case 0 branch, that is
only for the character of code 0. -/
theorem tokenFromChar_EOF_imp (c : Char) (rest : List Char)
    (h : (lexer.tokenFromChar c rest).1.typ = token.EOF) : c = Char.ofNat 0 := by
  rw [lexer.tokenFromChar] at h
  by_cases h1 : c = '='
  · rw [if_pos h1] at h
    by_cases h1b : lexer.peekChar rest = '='
    · rw [if_pos h1b] at h
      exact absurd (show token.EQ = token.EOF from h) (by decide)
    · rw [if_neg h1b] at h
      exact absurd (show token.ASSIGN = token.EOF from h) (by decide)
  rw [if_neg h1] at h
  by_cases h2 : c = ';'
  · rw [if_pos h2] at h
    exact absurd (show token.SEMICOLON = token.EOF from h) (by decide)
  rw [if_neg h2] at h
  by_cases h3 : c = '('
  · rw [if_pos h3] at h
    exact absurd (show token.LPAREN = token.EOF from h) (by decide)
  rw [if_neg h3] at h
  by_cases h4 : c = ')'
  · rw [if_pos h4] at h
    exact absurd (show token.RPAREN = token.EOF from h) (by decide)
  rw [if_neg h4] at h
  by_cases h5 : c = ','
  · rw [if_pos h5] at h
    exact absurd (show token.COMMA = token.EOF from h) (by decide)
  rw [if_neg h5] at h
  by_cases h6 : c = '+'
  · rw [if_pos h6] at h
    exact absurd (show token.PLUS = token.EOF from h) (by decide)
  rw [if_neg h6] at h
  by_cases h7 : c = '\x7b'
  · rw [if_pos h7] at h
    exact absurd (show token.LBRACE = token.EOF from h) (by decide)
  rw [if_neg h7] at h
  by_cases h8 : c = '\x7d'
  · rw [if_pos h8] at h
    exact absurd (show token.RBRACE = token.EOF from h) (by decide)
  rw [if_neg h8] at h
  by_cases h9 : c = '!'
  · rw [if_pos h9] at h
    by_cases h9b : lexer.peekChar rest = '='
    · rw [if_pos h9b] at h
      exact absurd (show token.NOT_EQ = token.EOF from h) (by decide)
    · rw [if_neg h9b] at h
      exact absurd (show token.BANG = token.EOF from h) (by decide)
  rw [if_neg h9] at h
  by_cases h10 : c = '-'
  · rw [if_pos h10] at h
    exact absurd (show token.MINUS = token.EOF from h) (by decide)
  rw [if_neg h10] at h
  by_cases h11 : c = '/'
  · rw [if_pos h11] at h
    exact absurd (show token.SLASH = token.EOF from h) (by decide)
  rw [if_neg h11] at h
  by_cases h12 : c = '*'
  · rw [if_pos h12] at h
    exact absurd (show token.ASTERISK = token.EOF from h) (by decide)
  rw [if_neg h12] at h
  by_cases h13 : c = '<'
  · rw [if_pos h13] at h
    exact absurd (show token.LT = token.EOF from h) (by decide)
  rw [if_neg h13] at h
  by_cases h14 : c = '>'
  · rw [if_pos h14] at h
    exact absurd (show token.GT = token.EOF from h) (by decide)
  rw [if_neg h14] at h
  by_cases h15 : c = Char.ofNat 0
  · exact h15
  rw [if_neg h15] at h
  by_cases h16 : lexer.isLetter c = true
  · rw [if_pos h16] at h
    exact absurd (show token.LookupIdent (String.mk ((c :: rest).takeWhile lexer.isLetter)) = token.EOF from h) (LookupIdent_ne_EOF _)
  rw [if_neg h16] at h
  by_cases h17 : lexer.isDigit c = true
  · rw [if_pos h17] at h
    exact absurd (show token.INT = token.EOF from h) (by decide)
  rw [if_neg h17] at h
  exact absurd (show token.ILLEGAL = token.EOF from h) (by decide)

/-- NextToken on a NUL-free state returns the EOF kind only at the end
of the input, and then leaves the state empty. -/
theorem NextToken_EOF_empty (l : List Char) (hnul : Char.ofNat 0 ∉ l)
    (h : (lexer.NextToken l).1.typ = token.EOF) : (lexer.NextToken l).2 = [] := by
  rw [lexer.NextToken] at h ⊢
  cases hs : lexer.skipWhiteSpace l with
  | nil => rfl
  | cons c rest =>
    rw [hs] at h
    have hcz : c = Char.ofNat 0 := tokenFromChar_EOF_imp c rest h
    have hmem : c ∈ l := (hs ▸ skipWhiteSpace_suffix l).subset (List.mem_cons_self c rest)
    exact absurd (hcz ▸ hmem) hnul

/-- lexState preserves the absence of the NUL character, because every
step moves to a suffix of the previous state. -/
theorem lexState_noNul (l : List Char) (hnul : Char.ofNat 0 ∉ l) (n : Nat) :
    Char.ofNat 0 ∉ lexer.lexState l n := by
  induction n with
  | zero => exact hnul
  | succ k ih =>
    intro hmem
    exact ih ((NextToken_snd_suffix (lexer.lexState l k)).subset hmem)

/-- C8 (amended): on an input string that does not contain the NUL
character (the sentinel the lexer uses for the end of the input), once
NextToken has returned the end-of-input token, every subsequent call
returns the end-of-input token as well. -/
theorem eof_absorbing_without_nul (l : List Char) (n m : Nat)
    (hnul : Char.ofNat 0 ∉ l) (hn : (lexer.tokenAt l n).typ = token.EOF) (hnm : n ≤ m) :
    (lexer.tokenAt l m).typ = token.EOF := by
  obtain ⟨k, rfl⟩ := Nat.exists_eq_add_of_le hnm
  cases k with
  | zero => exact hn
  | succ j =>
    have hempty : lexer.lexState l (n + 1) = [] :=
      NextToken_EOF_empty _ (lexState_noNul l hnul n) hn
    have hstay : ∀ i, lexer.lexState l (n + 1 + i) = [] := by
      intro i
      induction i with
      | zero => exact hempty
      | succ i2 ih =>
        show (lexer.NextToken (lexer.lexState l (n + 1 + i2))).2 = []
        rw [ih]
        rfl
    have hm : lexer.lexState l (n + (j + 1)) = [] := by
      have harith : n + (j + 1) = n + 1 + j := by omega
      rw [harith]
      exact hstay j
    show (lexer.NextToken (lexer.lexState l (n + (j + 1)))).1.typ = token.EOF
    rw [hm]
    rfl

/-- Witness for the C8 amended theorem on the NUL-free input x: the
second call returns end-of-input, so the third does as well. -/
theorem eof_absorbing_without_nul_witness :
    (lexer.tokenAt ("x").data 2).typ = token.EOF :=
  eof_absorbing_without_nul ("x").data 1 2 (by decide) rfl (by decide)

/-- C8 (counterexample): on the input consisting of the NUL character
followed by the letter a, the first call to NextToken returns the
end-of-input token, yet the next call returns an IDENT token, not
end-of-input: the lexer treats an embedded NUL byte as its end sentinel
and then reads past it. -/
theorem eof_not_absorbing_with_nul :
    lexer.tokenAt ("\x00a").data 0 = { typ := token.EOF, literal := "" } ∧
    lexer.tokenAt ("\x00a").data 1 = { typ := token.IDENT, literal := "a" } ∧
    token.IDENT ≠ token.EOF := by
  exact ⟨rfl, rfl, by decide⟩

/-- letNoSemiSkipEntry is the parser state at which parseLetStatement on
the input `let x = 5` enters its skip-to-semicolon loop: both expectPeek
checks have passed and the whole input has been lexed. -/
def letNoSemiSkipEntry : parser.Parser :=
  { curToken := { typ := token.ASSIGN, literal := "=" },
    peekToken := { typ := token.INT, literal := "5" },
    lrest := [], errors := [] }

/-- letNoSemiMid is the state one advance later. -/
def letNoSemiMid : parser.Parser :=
  { curToken := { typ := token.INT, literal := "5" },
    peekToken := { typ := token.EOF, literal := "" },
    lrest := [], errors := [] }

/-- letNoSemiStuck is the fixed point the skip loop reaches: both tokens
are end-of-input and advancing no longer changes the state. -/
def letNoSemiStuck : parser.Parser :=
  { curToken := { typ := token.EOF, literal := "" },
    peekToken := { typ := token.EOF, literal := "" },
    lrest := [], errors := [] }

/-- skipToSemicolon unfolds by one advance when the current token is not
a semicolon. -/
theorem skipToSemicolon_step (n : Nat) (p : parser.Parser)
    (h : p.curTokenIs token.SEMICOLON = false) :
    parser.skipToSemicolon (n + 1) p = parser.skipToSemicolon n p.nextToken := by
  rw [parser.skipToSemicolon]
  simp [h]

/-- skipToSemicolon never returns from the stuck end-of-input state,
whatever the fuel: the state is a fixed point of nextToken and its
current token is never a semicolon.  This is the Go loop running
forever. -/
theorem skipToSemicolon_stuck (n : Nat) :
    parser.skipToSemicolon n letNoSemiStuck = none := by
  induction n with
  | zero => rfl
  | succ k ih =>
    rw [skipToSemicolon_step k letNoSemiStuck rfl]
    exact ih

/-- skipToSemicolon never returns from the skip-entry state of
`let x = 5`: after two advances it is stuck at end-of-input. -/
theorem skipToSemicolon_letNoSemi (n : Nat) :
    parser.skipToSemicolon n letNoSemiSkipEntry = none := by
  cases n with
  | zero => rfl
  | succ k =>
    rw [skipToSemicolon_step k letNoSemiSkipEntry rfl]
    cases k with
    | zero => rfl
    | succ j =>
      rw [show letNoSemiSkipEntry.nextToken = letNoSemiMid from rfl,
          skipToSemicolon_step j letNoSemiMid rfl,
          show letNoSemiMid.nextToken = letNoSemiStuck from rfl]
      exact skipToSemicolon_stuck j

/-- ParseProgramLoop unfolds by one statement when the current token is
not end-of-input. -/
theorem ParseProgramLoop_step (n : Nat) (p : parser.Parser) (acc : List (Option ast.Statement))
    (h : p.curTokenIs token.EOF = false) :
    parser.ParseProgramLoop (n + 1) p acc =
      match parser.parseStatement n p with
      | none => none
      | some (stmt, p1) => parser.ParseProgramLoop n p1.nextToken (acc ++ [stmt]) := by
  rw [parser.ParseProgramLoop]
  simp [h]

/-- C10: ParseProgram does not terminate on the input `let x = 5`, whose
final let statement is not followed by a semicolon: for every fuel the
fueled parser gives up inside the skip-to-semicolon loop, because after
the end of the input the lexer keeps returning end-of-input tokens and
the loop only stops on a semicolon. -/
theorem parseProgram_let_no_semicolon_diverges (fuel : Nat) :
    parser.parseInput fuel "let x = 5" = none := by
  cases fuel with
  | zero => rfl
  | succ n =>
    show parser.ParseProgramLoop (n + 1) (parser.New ("let x = 5").data) [] = none
    rw [ParseProgramLoop_step n (parser.New ("let x = 5").data) [] rfl]
    have hstmt : parser.parseStatement n (parser.New ("let x = 5").data) =
        match parser.skipToSemicolon n letNoSemiSkipEntry with
        | none => none
        | some p2 => some (some (ast.Statement.LetStatement { typ := token.LET, literal := "let" }
            { tok := { typ := token.IDENT, literal := "x" }, value := "x" } none), p2) := rfl
    rw [hstmt, skipToSemicolon_letNoSemi n]

end Monkey
